import Mathlib

/-!
Shallow embedding of the Doctoralia scraper (`scraper.py`) and verification of
its specification claims.

Modelling conventions:
* Network behaviour is an oracle: a function from the attempt index (0-based)
  to `Option page`; `none` models any `requests.RequestException` path
  (connection failure, timeout, or `raise_for_status` on a bad status).
* Uncaught Python exceptions are modelled by `Except PyErr`; code that cannot
  raise is a plain function.
* Sleeps are recorded as a list of durations (in seconds) rather than
  performed.
* The in-memory set of known doctor ids is a `Finset Int`.
-/

/-- Uncaught Python exception kinds relevant to the scraper: `int(None)`
raises `TypeError`, `int("not-a-number")` raises `ValueError`. -/
inductive PyErr where
  | typeError
  | valueError
deriving DecidableEq, Repr

/-- Numeric value of a list of ASCII digit characters, most significant
first (the value `int` computes on a digit string). -/
def charsVal (cs : List Char) : Nat :=
  cs.foldl (fun acc c => 10 * acc + (c.toNat - '0'.toNat)) 0

/-- Leading whitespace removed from a list of characters. -/
def dropLeadingWs : List Char → List Char
  | [] => []
  | c :: cs => if c.isWhitespace then dropLeadingWs cs else c :: cs

/-- Model of Python `str.strip()` (and of the whitespace stripping done by
`get_text(strip=True)`): whitespace removed from both ends. Defined over the
character list so that it evaluates by kernel reduction. -/
def pyStrip (s : String) : String :=
  String.mk ((dropLeadingWs ((dropLeadingWs s.toList).reverse)).reverse)

/-- Model of Python `str.isdigit` restricted to ASCII: true iff the string is
nonempty and every character is a decimal digit. -/
def pyIsDigit (s : String) : Bool :=
  !s.isEmpty && s.toList.all Char.isDigit

/-- Model of Python `int(s)` on a string: strips surrounding whitespace,
allows an optional sign, then requires at least one digit (ASCII model;
underscore grouping and non-ASCII digits are out of scope). `none` models a
`ValueError`. -/
def pyIntCore (s : String) : Option Int :=
  match (pyStrip s).toList with
  | [] => none
  | '+' :: rest =>
      if !rest.isEmpty && rest.all Char.isDigit then some (Int.ofNat (charsVal rest)) else none
  | '-' :: rest =>
      if !rest.isEmpty && rest.all Char.isDigit then some (-(Int.ofNat (charsVal rest))) else none
  | cs =>
      if cs.all Char.isDigit then some (Int.ofNat (charsVal cs)) else none

/-- Model of `int(block.get('result-id'))` in `scrape_search_results`:
`block.get` yields `None` when the attribute is absent (so `int` raises
`TypeError`), and a non-numeric string makes `int` raise `ValueError`. -/
def pyInt : Option String → Except PyErr Int
  | none => .error .typeError
  | some s =>
      match pyIntCore s with
      | some i => .ok i
      | none => .error .valueError

/-- Model of Python truthiness of an optional string (`if doctor_info['profile_url']:`):
`None` and the empty string are falsy. -/
def pyTruthy : Option String → Bool
  | none => false
  | some s => !s.isEmpty

/-- Retry constant `MAX_RETRIES` of the source. -/
def MAX_RETRIES : Nat := 3

/-- Retry constant `RETRY_DELAY_SECONDS` of the source. -/
def RETRY_DELAY_SECONDS : Nat := 10

/-- Outcome of one retried operation: the response (if any attempt
succeeded), the number of attempts actually made, and the list of sleep
durations performed (one entry before each retry). -/
structure RetryResult (α : Type) where
  result : Option α
  attempts : Nat
  sleeps : List Nat
deriving Repr

/-- Body of the retry loop
`for attempt in range(MAX_RETRIES + 1): ...` shared by the three call sites
of the source: before attempt `a > 0` it sleeps `d * a` seconds, then runs
the operation; success breaks out, failure falls through to the next
attempt; `remaining` counts the attempts still allowed after this one. -/
def retryGo (op : Nat → Option α) (d : Nat) : Nat → Nat → RetryResult α
  | a, 0 =>
      let sl : List Nat := if a = 0 then [] else [d * a]
      match op a with
      | some v => ⟨some v, 1, sl⟩
      | none => ⟨none, 1, sl⟩
  | a, r + 1 =>
      let sl : List Nat := if a = 0 then [] else [d * a]
      match op a with
      | some v => ⟨some v, 1, sl⟩
      | none =>
          let rest := retryGo op d (a + 1) r
          ⟨rest.result, rest.attempts + 1, sl ++ rest.sleeps⟩

/-- Retry policy of the source: the initial attempt plus up to `maxRetries`
retries with linear backoff `d * attemptIndex`. -/
def executeWithRetry (op : Nat → Option α) (maxRetries d : Nat) : RetryResult α :=
  retryGo op d 0 maxRetries

/-- Numeric page labels of the pagination control: the loop of
`get_total_pages` that keeps `link.get_text(strip=True)` when it `isdigit()`
and converts it with `int`. -/
def numericLabels (labels : List String) : List Nat :=
  labels.filterMap fun l =>
    let t := pyStrip l
    if pyIsDigit t then some (charsVal t.toList) else none

/-- Model of `get_total_pages`: the pagination control is `none` when the
`aside` element is absent; otherwise it carries the text labels of the
`page-link` anchors. Returns 1 when the control is absent or has no numeric
label, else the maximum numeric label. -/
def get_total_pages (pagination : Option (List String)) : Nat :=
  match pagination with
  | none => 1
  | some labels =>
      match numericLabels labels with
      | [] => 1
      | n :: rest => rest.foldl Nat.max n

/-- One `calendar-availability-app` element of a listing page, with the three
attributes the scraper reads (`block.get` yields `none` for an absent
attribute). -/
structure Block where
  result_id : Option String
  result_name : Option String
  url : Option String
deriving DecidableEq, Repr

/-- One `doctor_info` dict as built by `scrape_search_results`: id, display
name, and the raw `url` attribute (possibly absent). -/
structure Stub where
  id : Int
  name : String
  profile_url : Option String
deriving DecidableEq, Repr

/-- Inner loop of `scrape_search_results` over the `calendar_blocks` of one
page: converts the `result-id` attribute with an unguarded `int(...)`, skips
ids already in `existing_ids`, and appends a stub (adding its id to
`existing_ids`) only when the `url` attribute is truthy. -/
def processBlocks : List Block → Finset Int → List Stub → Except PyErr (Finset Int × List Stub)
  | [], kn, acc => .ok (kn, acc)
  | b :: rest, kn, acc =>
      match pyInt b.result_id with
      | .error e => .error e
      | .ok rid =>
          if rid ∈ kn then
            processBlocks rest kn acc
          else
            let info : Stub := ⟨rid, pyStrip (b.result_name.getD "N/A"), b.url⟩
            if pyTruthy info.profile_url then
              processBlocks rest (insert rid kn) (acc ++ [info])
            else
              processBlocks rest kn acc

/-- Parsed content of the first search page: the pagination control (as fed
to `get_total_pages`) and the page's announcement blocks. -/
structure FirstPage where
  pagination : Option (List String)
  blocks : List Block
deriving DecidableEq, Repr

/-- Network oracle for `scrape_search_results`: `firstPage a` is the parsed
response of attempt `a` on page 1 (none = request failure), and
`page n a` likewise for page `n ≥ 2`. -/
structure SearchOracle where
  firstPage : Nat → Option FirstPage
  page : Nat → Nat → Option (List Block)

/-- Content of page `n` as the walk of `scrape_search_results` sees it:
page 1 reuses the already-parsed first page, later pages go through the
retried fetch (`none` = skipped after exhausted retries). -/
def pageContent (o : SearchOracle) (fp : FirstPage) (n : Nat) : Option (List Block) :=
  if n = 1 then some fp.blocks
  else (executeWithRetry (o.page n) MAX_RETRIES RETRY_DELAY_SECONDS).result

/-- Page numbers walked for a discovered total: `range(1, total_pages + 1)`. -/
def pageRange (total : Nat) : List Nat :=
  List.range' 1 total

/-- Page loop of `scrape_search_results`: each page either resolves to block
content (then scanned by `processBlocks`, threading `existing_ids` and the
accumulated `doctors_to_process`) or is skipped after exhausted retries. -/
def walkAux (getPage : Nat → Option (List Block)) :
    List Nat → Finset Int → List Stub → Except PyErr (Finset Int × List Stub)
  | [], kn, acc => .ok (kn, acc)
  | n :: rest, kn, acc =>
      match getPage n with
      | none => walkAux getPage rest kn acc
      | some blocks =>
          match processBlocks blocks kn acc with
          | .error e => .error e
          | .ok (kn', acc') => walkAux getPage rest kn' acc'

/-- Model of `scrape_search_results`: fetch page 1 with the retry loop
(returning the empty list when it fails definitively), discover the total
page count from it, then walk pages `1..total`. -/
def scrape_search_results (o : SearchOracle) (existing_ids : Finset Int) :
    Except PyErr (List Stub) :=
  match (executeWithRetry o.firstPage MAX_RETRIES RETRY_DELAY_SECONDS).result with
  | none => .ok []
  | some fp =>
      match walkAux (pageContent o fp) (pageRange (get_total_pages fp.pagination))
          existing_ids [] with
      | .error e => .error e
      | .ok (_, stubs) => .ok stubs

/-- Blocks actually scanned during a walk: the concatenation of the contents
of the pages that resolved. -/
def scannedBlocks (getPage : Nat → Option (List Block)) (pages : List Nat) : List Block :=
  (pages.filterMap getPage).flatten

/-- Parsed content of a profile detail page, as consumed by
`fetch_profile_details`: the specialization anchor text (when the designated
`span` and its anchor exist), the raw regex phone matches of the page text,
the `stripped_strings` of each `streetAddress` block, and — to model a
parsing exception caught by the surrounding `try`/`except` — the number of
extraction steps (specialization, phones, addresses, in source order) that
complete before the fault (`none` = no fault). -/
structure DetailPage where
  specialization : Option String
  phones : List String
  addresses : List (List String)
  failAfter : Option Nat
deriving DecidableEq, Repr

/-- One consolidated doctor record as assembled by `fetch_profile_details`
(`doctor_info` after the final `update`). -/
structure DocRecord where
  id : Int
  name : String
  profile_url : Option String
  phone : Option String
  specialization : Option String
  address : Option String
deriving DecidableEq, Repr

/-- Lexicographic code-point comparison of character lists (the order Python
uses to compare strings). -/
def charsLe : List Char → List Char → Bool
  | [], _ => true
  | _ :: _, [] => false
  | a :: as, b :: bs => if a = b then charsLe as bs else decide (a.toNat < b.toNat)

/-- Model of Python string `<=` (lexicographic on code points), defined over
character lists so that it evaluates by kernel reduction. -/
def pyStrLe (s t : String) : Bool :=
  charsLe s.toList t.toList

/-- Insertion of a string into a lexicographically sorted list. -/
def insertSorted (s : String) : List String → List String
  | [] => [s]
  | t :: ts => if pyStrLe s t then s :: t :: ts else t :: insertSorted s ts

/-- Model of Python `sorted` on a list of strings. -/
def sortStrings (l : List String) : List String :=
  l.foldr insertSorted []

/-- Phone field assembly: `", ".join(sorted(list(set(found_phones))))` when
any match was found, else `None`. -/
def phoneField (found : List String) : Option String :=
  match found with
  | [] => none
  | _ => some (String.intercalate ", " (sortStrings found.dedup))

/-- Address field assembly: each block's stripped parts joined with spaces,
the blocks joined with `"; "`, `None` when no block matched. -/
def addressField (blocks : List (List String)) : Option String :=
  match blocks with
  | [] => none
  | _ => some (String.intercalate "; "
      (blocks.map fun parts => String.intercalate " " (parts.map pyStrip)))

/-- Number of extraction steps of the detail parse that complete (3 when no
parsing exception occurs). -/
def parseSteps (p : DetailPage) : Nat :=
  match p.failAfter with
  | none => 3
  | some k => k

/-- Parse section of `fetch_profile_details` (the body of its `try`): the
three enrichable fields start as `None` and each is assigned by its
extraction step; a parsing exception is caught, so the fields assigned
before the fault are kept. Returns (phone, specialization, address). -/
def parseDetails (p : DetailPage) : Option String × Option String × Option String :=
  let specialization := if 1 ≤ parseSteps p then p.specialization.map pyStrip else none
  let phone := if 2 ≤ parseSteps p then phoneField p.phones else none
  let address := if 3 ≤ parseSteps p then addressField p.addresses else none
  (phone, specialization, address)

/-- Model of `fetch_profile_details`: the detail page is fetched with the
retry loop; on definitive failure all three enrichable fields stay `None`;
otherwise they come from the (exception-tolerant) parse. The stub's own
fields are carried over unchanged by `doctor_info.update`. In the source
every exception path of this function is caught, so it is a total
function. -/
def fetch_profile_details (op : Nat → Option DetailPage) (doctor_info : Stub) : DocRecord :=
  match (executeWithRetry op MAX_RETRIES RETRY_DELAY_SECONDS).result with
  | none => ⟨doctor_info.id, doctor_info.name, doctor_info.profile_url, none, none, none⟩
  | some page =>
      let (phone, specialization, address) := parseDetails page
      ⟨doctor_info.id, doctor_info.name, doctor_info.profile_url,
        phone, specialization, address⟩

/-- One submitted future of the detail pool: `future.result()` either
returns the record or re-raises an exception of the worker. Since
`fetch_profile_details` catches all its exception paths, the future always
holds a result. -/
def detailFuture (details : Stub → Nat → Option DetailPage) (s : Stub) : Except PyErr DocRecord :=
  .ok (fetch_profile_details (details s) s)

/-- Collection loop of `main` over `as_completed`: a future whose `result()`
raises is logged and dropped, one that returns is appended to
`completed_doctors`. -/
def collectResults (futures : List (Except PyErr DocRecord)) : List DocRecord :=
  futures.foldl (fun acc f =>
    match f with
    | .ok r => acc ++ [r]
    | .error _ => acc) []

/-- Detail-fetch pool of `main`: one future per stub in
`profiles_to_process`, results collected as they complete (completion order
is abstracted to submission order; the claims under verification concern
only which outcomes appear, not their order). -/
def runPool (details : Stub → Nat → Option DetailPage) (stubs : List Stub) : List DocRecord :=
  collectResults (stubs.map (detailFuture details))

/-- Database failure signal (`sqlite3.Error`). -/
inductive DbErr where
  | sqliteError
deriving DecidableEq, Repr

/-- Model of `get_existing_ids`: the `SELECT id FROM doctors` either yields
the id set or raises `sqlite3.Error`, which the function catches, returning
the empty set. -/
def get_existing_ids : Except DbErr (Finset Int) → Finset Int
  | .ok s => s
  | .error _ => ∅

/-- External world of one discovery-mode run: the database read for
`get_existing_ids`, the search-page oracle, and a per-stub detail-page
oracle. -/
structure Env where
  db : Except DbErr (Finset Int)
  search : SearchOracle
  details : Stub → Nat → Option DetailPage

/-- Observable outcome of one `main --mode new` run: the work list, whether
the thread pool was entered, the collected records, and whether
`save_to_database` was invoked. -/
structure RunOutcome where
  profiles_to_process : List Stub
  poolInvoked : Bool
  completed_doctors : List DocRecord
  persistInvoked : Bool
deriving DecidableEq, Repr

/-- Model of `main` in discovery mode (`--mode new`), after
`setup_database` and the warm-up request: load the known ids (tolerating a
database error), scrape the search results, stop if the work list is empty,
otherwise run the detail pool and persist the collected records (the source
calls `save_to_database` only when `completed_doctors` is nonempty). An
uncaught exception of the walk aborts the run (`Except.error`). -/
def mainNew (env : Env) : Except PyErr RunOutcome :=
  let existing_ids := get_existing_ids env.db
  match scrape_search_results env.search existing_ids with
  | .error e => .error e
  | .ok profiles =>
      if profiles.isEmpty then
        .ok ⟨[], false, [], false⟩
      else
        let completed := runPool env.details profiles
        .ok ⟨profiles, true, completed, !completed.isEmpty⟩

/-- Concrete announcement block with id 5 (used to instantiate theorems). -/
def blockA : Block := ⟨some "5", some "Dr. A", some "uA"⟩

/-- Concrete announcement block with id 7. -/
def blockB : Block := ⟨some "7", some "Dr. B", some "uB"⟩

/-- Concrete announcement block with id 9 (an already-known id). -/
def blockK : Block := ⟨some "9", some "Dr. K", some "uK"⟩

/-- Concrete block whose `result-id` attribute is absent. -/
def blockBad : Block := ⟨none, some "Dr. X", some "uX"⟩

/-- Concrete first page: pagination label "2" and two announcement blocks. -/
def firstPageW : FirstPage := ⟨some ["2"], [blockA, blockK]⟩

/-- Concrete search oracle: page 1 always resolves to `firstPageW`, page 2
resolves to a page repeating block A and adding block B. -/
def oracleW : SearchOracle :=
  ⟨fun _ => some firstPageW, fun n _ => if n = 2 then some [blockA, blockB] else none⟩

/-- Concrete search oracle whose page 2 never resolves. -/
def oracleW7 : SearchOracle := ⟨fun _ => some firstPageW, fun _ _ => none⟩

/-- Concrete environment whose first search page never resolves. -/
def envW8 : Env := ⟨.ok ∅, ⟨fun _ => none, fun _ _ => none⟩, fun _ _ => none⟩

/-- Concrete environment whose first search page carries a block without a
`result-id` attribute. -/
def envW9 : Env :=
  ⟨.ok ∅, ⟨fun _ => some ⟨none, [blockBad]⟩, fun _ _ => none⟩, fun _ _ => none⟩

/-- Concrete environment whose known-id database read fails. -/
def envW10 : Env :=
  ⟨.error .sqliteError, ⟨fun _ => some firstPageW, fun _ _ => none⟩, fun _ _ => none⟩

section RetryLemmas

variable {α : Type}

/-- Retry loop starting at attempt `a ≥ 1` with every remaining attempt
failing: all attempts are used, each preceded by its linear-backoff sleep. -/
lemma retryGo_all_fail (op : Nat → Option α) (d : Nat) :
    ∀ r a, 1 ≤ a → (∀ i, a ≤ i → i ≤ a + r → op i = none) →
      retryGo op d a r = ⟨none, r + 1, (List.range' a (r + 1)).map (fun i => d * i)⟩ := by
  intro r
  induction r with
  | zero =>
      intro a ha h
      have hop : op a = none := h a le_rfl (by omega)
      simp [retryGo, hop, Nat.pos_iff_ne_zero.mp ha, List.range'_succ]
  | succ r ih =>
      intro a ha h
      have hop : op a = none := h a le_rfl (by omega)
      have hrest := ih (a + 1) (by omega) (fun i h1 h2 => h i (by omega) (by omega))
      simp [retryGo, hop, Nat.pos_iff_ne_zero.mp ha, hrest, List.range'_succ]

/-- Retry policy with every attempt failing: `m + 1` attempts are made, no
result is produced, and the sleeps are `d * 1, …, d * m`. -/
lemma executeWithRetry_all_fail (op : Nat → Option α) (d m : Nat)
    (h : ∀ i, i ≤ m → op i = none) :
    executeWithRetry op m d = ⟨none, m + 1, (List.range' 1 m).map (fun i => d * i)⟩ := by
  cases m with
  | zero => simp [executeWithRetry, retryGo, h 0 le_rfl]
  | succ n =>
      have hop : op 0 = none := h 0 (by omega)
      have hrest := retryGo_all_fail op d n 1 le_rfl (fun i h1 h2 => h i (by omega))
      simp [executeWithRetry, retryGo, hop, hrest]

/-- Retry loop starting at attempt `a ≥ 1`, failing for `j` attempts and
succeeding at attempt `a + j`. -/
lemma retryGo_succeeds (op : Nat → Option α) (d : Nat) :
    ∀ r a j v, 1 ≤ a → j ≤ r →
      (∀ i, a ≤ i → i < a + j → op i = none) → op (a + j) = some v →
      retryGo op d a r = ⟨some v, j + 1, (List.range' a (j + 1)).map (fun i => d * i)⟩ := by
  intro r
  induction r with
  | zero =>
      intro a j v ha hj hfail hsucc
      interval_cases j
      simp only [Nat.add_zero] at hsucc
      simp [retryGo, hsucc, Nat.pos_iff_ne_zero.mp ha, List.range'_succ]
  | succ r ih =>
      intro a j v ha hj hfail hsucc
      cases j with
      | zero =>
          simp only [Nat.add_zero] at hsucc
          simp [retryGo, hsucc, Nat.pos_iff_ne_zero.mp ha, List.range'_succ]
      | succ j' =>
          have hop : op a = none := hfail a le_rfl (by omega)
          have hrest := ih (a + 1) j' v (by omega) (by omega)
            (fun i h1 h2 => hfail i (by omega) (by omega))
            (by rw [show a + 1 + j' = a + (j' + 1) by omega]; exact hsucc)
          simp [retryGo, hop, Nat.pos_iff_ne_zero.mp ha, hrest, List.range'_succ]

/-- Retry policy failing on attempts `0, …, k-1` and succeeding at attempt
`k ≤ m`: the success is returned after `k + 1` attempts with sleeps
`d * 1, …, d * k`. -/
lemma executeWithRetry_succeeds (op : Nat → Option α) (d m k : Nat) (v : α)
    (hk : k ≤ m) (hfail : ∀ i, i < k → op i = none) (hsucc : op k = some v) :
    executeWithRetry op m d = ⟨some v, k + 1, (List.range' 1 k).map (fun i => d * i)⟩ := by
  cases k with
  | zero => cases m <;> simp [executeWithRetry, retryGo, hsucc]
  | succ k' =>
      cases m with
      | zero => omega
      | succ m' =>
          have hop : op 0 = none := hfail 0 (by omega)
          have hrest := retryGo_succeeds op d m' 1 k' v le_rfl (by omega)
            (fun i h1 h2 => hfail i (by omega))
            (by rw [show 1 + k' = k' + 1 by omega]; exact hsucc)
          simp [executeWithRetry, retryGo, hop, hrest]

end RetryLemmas

section MaxLemmas

/-- Folded maximum is one of the candidate values. -/
lemma foldl_max_mem (l : List Nat) : ∀ n, l.foldl Nat.max n ∈ n :: l := by
  induction l with
  | nil => intro n; simp
  | cons x xs ih =>
      intro n
      rw [List.foldl_cons]
      rcases List.mem_cons.mp (ih (Nat.max n x)) with h' | h'
      · rw [h']
        have hchoice : Nat.max n x = n ∨ Nat.max n x = x := max_choice n x
        rcases hchoice with hm | hm <;> rw [hm] <;> simp
      · simp only [List.mem_cons]
        right; right; exact h'

/-- Folded maximum bounds every candidate value. -/
lemma foldl_max_le (l : List Nat) : ∀ n m, m ∈ n :: l → m ≤ l.foldl Nat.max n := by
  induction l with
  | nil =>
      intro n m hm
      have hmn : m = n := by simpa using hm
      simp [hmn]
  | cons x xs ih =>
      intro n m hm
      rw [List.foldl_cons]
      have hbase : Nat.max n x ≤ List.foldl Nat.max (Nat.max n x) xs :=
        ih _ _ (List.mem_cons_self _ _)
      rcases List.mem_cons.mp hm with rfl | h
      · exact le_trans (Nat.le_max_left m x) hbase
      · rcases List.mem_cons.mp h with rfl | h'
        · exact le_trans (Nat.le_max_right n m) hbase
        · exact ih _ _ (List.mem_cons.mpr (Or.inr h'))

end MaxLemmas

/-- Collection over futures that all completed normally keeps every result,
in order. -/
lemma collectResults_ok (f : Stub → DocRecord) (stubs : List Stub) :
    collectResults (stubs.map (fun s => Except.ok (f s))) = stubs.map f := by
  suffices h : ∀ acc, (stubs.map fun s => (Except.ok (f s) : Except PyErr DocRecord)).foldl
      (fun acc fu => match fu with | .ok r => acc ++ [r] | .error _ => acc) acc
      = acc ++ stubs.map f by
    simpa [collectResults] using h []
  induction stubs with
  | nil => intro acc; simp
  | cons s rest ih => intro acc; simp [ih]

/-- Scan of one page's blocks when every `result-id` parses: no exception is
raised, the emitted stubs are appended in scan order, an id is in the updated
`existing_ids` iff it was known before or was emitted, the emitted ids are
distinct, every emitted stub has a truthy profile reference, and an id is
emitted iff it was unknown on entry and some block announces it with a
truthy reference. -/
lemma processBlocks_spec :
    ∀ (blocks : List Block) (kn : Finset Int) (acc : List Stub),
      (∀ b ∈ blocks, ∃ i, pyInt b.result_id = Except.ok i) →
      ∃ kn' out, processBlocks blocks kn acc = .ok (kn', acc ++ out) ∧
        (∀ i : Int, i ∈ kn' ↔ i ∈ kn ∨ i ∈ out.map Stub.id) ∧
        (out.map Stub.id).Nodup ∧
        (∀ s ∈ out, pyTruthy s.profile_url = true) ∧
        (∀ i : Int, i ∈ out.map Stub.id ↔
          i ∉ kn ∧ ∃ b ∈ blocks, pyInt b.result_id = Except.ok i ∧ pyTruthy b.url = true) := by
  intro blocks
  induction blocks with
  | nil =>
      intro kn acc _
      exact ⟨kn, [], by simp [processBlocks], by simp, by simp, by simp, by simp⟩
  | cons b rest ih =>
      intro kn acc hlegal
      obtain ⟨rid, hrid⟩ := hlegal b (List.mem_cons_self _ _)
      have hlegal' : ∀ b' ∈ rest, ∃ i, pyInt b'.result_id = Except.ok i :=
        fun b' hb' => hlegal b' (List.mem_cons.mpr (Or.inr hb'))
      by_cases hmem : rid ∈ kn
      · obtain ⟨kn', out, heq, hkn, hnd, htrA, hiff⟩ := ih kn acc hlegal'
        refine ⟨kn', out, ?_, hkn, hnd, htrA, ?_⟩
        · simpa [processBlocks, hrid, hmem] using heq
        · intro i
          rw [hiff i]
          constructor
          · rintro ⟨hnk, b', hb', h1, h2⟩
            exact ⟨hnk, b', List.mem_cons.mpr (Or.inr hb'), h1, h2⟩
          · rintro ⟨hnk, b', hb', h1, h2⟩
            rcases List.mem_cons.mp hb' with rfl | hb'
            · rw [hrid] at h1
              injection h1 with h1
              exact absurd (h1 ▸ hmem) hnk
            · exact ⟨hnk, b', hb', h1, h2⟩
      · by_cases htr0 : pyTruthy b.url = true
        · obtain ⟨kn', out, heq, hkn, hnd, htrA, hiff⟩ :=
            ih (insert rid kn) (acc ++ [⟨rid, pyStrip (b.result_name.getD "N/A"), b.url⟩])
              hlegal'
          refine ⟨kn', ⟨rid, pyStrip (b.result_name.getD "N/A"), b.url⟩ :: out,
            ?_, ?_, ?_, ?_, ?_⟩
          · simpa [processBlocks, hrid, hmem, htr0] using heq
          · intro i
            rw [hkn i]
            simp only [Finset.mem_insert, List.map_cons, List.mem_cons]
            tauto
          · have hnotin : rid ∉ out.map Stub.id := by
              intro hin
              exact ((hiff rid).mp hin).1 (Finset.mem_insert_self rid kn)
            rw [List.map_cons]
            exact List.nodup_cons.mpr ⟨hnotin, hnd⟩
          · intro s hs
            rcases List.mem_cons.mp hs with rfl | hs
            · exact htr0
            · exact htrA s hs
          · intro i
            simp only [List.map_cons, List.mem_cons]
            constructor
            · rintro (rfl | hin)
              · exact ⟨hmem, b, Or.inl rfl, hrid, htr0⟩
              · obtain ⟨hnk, b', hb', h1, h2⟩ := (hiff i).mp hin
                exact ⟨fun hk => hnk (Finset.mem_insert_of_mem hk), b',
                  Or.inr hb', h1, h2⟩
            · rintro ⟨hnk, b', hb', h1, h2⟩
              rcases hb' with rfl | hb'
              · left
                rw [hrid] at h1
                injection h1 with h1
                exact h1.symm
              · by_cases hir : i = rid
                · exact Or.inl hir
                · refine Or.inr ((hiff i).mpr ⟨?_, b', hb', h1, h2⟩)
                  exact fun h => (Finset.mem_insert.mp h).elim hir hnk
        · obtain ⟨kn', out, heq, hkn, hnd, htrA, hiff⟩ := ih kn acc hlegal'
          refine ⟨kn', out, ?_, hkn, hnd, htrA, ?_⟩
          · simpa [processBlocks, hrid, hmem, htr0] using heq
          · intro i
            rw [hiff i]
            constructor
            · rintro ⟨hnk, b', hb', h1, h2⟩
              exact ⟨hnk, b', List.mem_cons.mpr (Or.inr hb'), h1, h2⟩
            · rintro ⟨hnk, b', hb', h1, h2⟩
              rcases List.mem_cons.mp hb' with rfl | hb'
              · exact absurd h2 htr0
              · exact ⟨hnk, b', hb', h1, h2⟩

lemma scannedBlocks_nil (getPage : Nat → Option (List Block)) :
    scannedBlocks getPage [] = [] := rfl

lemma scannedBlocks_cons_none (getPage : Nat → Option (List Block)) {n : Nat}
    (rest : List Nat) (h : getPage n = none) :
    scannedBlocks getPage (n :: rest) = scannedBlocks getPage rest := by
  simp [scannedBlocks, List.filterMap_cons, h]

lemma scannedBlocks_cons_some (getPage : Nat → Option (List Block)) {n : Nat}
    {blocks : List Block} (rest : List Nat) (h : getPage n = some blocks) :
    scannedBlocks getPage (n :: rest) = blocks ++ scannedBlocks getPage rest := by
  simp [scannedBlocks, List.filterMap_cons, h]

/-- Page walk when every scanned `result-id` parses: no exception is raised,
and the properties of `processBlocks_spec` hold across pages for the
concatenated output. -/
lemma walkAux_spec (getPage : Nat → Option (List Block)) :
    ∀ (pages : List Nat) (kn : Finset Int) (acc : List Stub),
      (∀ b ∈ scannedBlocks getPage pages, ∃ i, pyInt b.result_id = Except.ok i) →
      ∃ kn' out, walkAux getPage pages kn acc = .ok (kn', acc ++ out) ∧
        (∀ i : Int, i ∈ kn' ↔ i ∈ kn ∨ i ∈ out.map Stub.id) ∧
        (out.map Stub.id).Nodup ∧
        (∀ s ∈ out, pyTruthy s.profile_url = true) ∧
        (∀ i : Int, i ∈ out.map Stub.id ↔
          i ∉ kn ∧ ∃ b ∈ scannedBlocks getPage pages,
            pyInt b.result_id = Except.ok i ∧ pyTruthy b.url = true) := by
  intro pages
  induction pages with
  | nil =>
      intro kn acc _
      exact ⟨kn, [], by simp [walkAux], by simp, by simp, by simp,
        by simp [scannedBlocks_nil]⟩
  | cons n rest ih =>
      intro kn acc hlegal
      cases hpage : getPage n with
      | none =>
          have hscan := scannedBlocks_cons_none getPage rest hpage
          obtain ⟨kn', out, heq, hkn, hnd, htrA, hiff⟩ :=
            ih kn acc (by rw [← hscan]; exact hlegal)
          refine ⟨kn', out, ?_, hkn, hnd, htrA, ?_⟩
          · simpa [walkAux, hpage] using heq
          · intro i
            rw [hscan]
            exact hiff i
      | some blocks =>
          have hscan := scannedBlocks_cons_some getPage rest hpage
          have hlegal1 : ∀ b ∈ blocks, ∃ i, pyInt b.result_id = Except.ok i := by
            intro b hb
            exact hlegal b (by rw [hscan]; exact List.mem_append.mpr (Or.inl hb))
          have hlegal2 : ∀ b ∈ scannedBlocks getPage rest,
              ∃ i, pyInt b.result_id = Except.ok i := by
            intro b hb
            exact hlegal b (by rw [hscan]; exact List.mem_append.mpr (Or.inr hb))
          obtain ⟨kn₁, out₁, heq₁, hkn₁, hnd₁, htr₁, hiff₁⟩ :=
            processBlocks_spec blocks kn acc hlegal1
          obtain ⟨kn₂, out₂, heq₂, hkn₂, hnd₂, htr₂, hiff₂⟩ :=
            ih kn₁ (acc ++ out₁) hlegal2
          refine ⟨kn₂, out₁ ++ out₂, ?_, ?_, ?_, ?_, ?_⟩
          · simp only [walkAux, hpage, heq₁]
            rw [heq₂, List.append_assoc]
          · intro i
            rw [hkn₂ i, hkn₁ i]
            simp only [List.map_append, List.mem_append]
            tauto
          · rw [List.map_append]
            refine List.nodup_append.mpr ⟨hnd₁, hnd₂, ?_⟩
            intro i hi₁ hi₂
            exact ((hiff₂ i).mp hi₂).1 ((hkn₁ i).mpr (Or.inr hi₁))
          · intro s hs
            rcases List.mem_append.mp hs with hs | hs
            · exact htr₁ s hs
            · exact htr₂ s hs
          · intro i
            rw [hscan]
            simp only [List.map_append, List.mem_append]
            constructor
            · rintro (hin | hin)
              · obtain ⟨hnk, b, hb, h1, h2⟩ := (hiff₁ i).mp hin
                exact ⟨hnk, b, Or.inl hb, h1, h2⟩
              · obtain ⟨hnk, b, hb, h1, h2⟩ := (hiff₂ i).mp hin
                exact ⟨fun hk => hnk ((hkn₁ i).mpr (Or.inl hk)), b, Or.inr hb, h1, h2⟩
            · rintro ⟨hnk, b, hb, h1, h2⟩
              rcases hb with hb | hb
              · exact Or.inl ((hiff₁ i).mpr ⟨hnk, b, hb, h1, h2⟩)
              · by_cases hin₁ : i ∈ out₁.map Stub.id
                · exact Or.inl hin₁
                · refine Or.inr ((hiff₂ i).mpr ⟨?_, b, hb, h1, h2⟩)
                  intro hk
                  rcases (hkn₁ i).mp hk with hk | hk
                  · exact hnk hk
                  · exact hin₁ hk

/-- Walking with a page whose content never resolves is the same walk with
every occurrence of that page removed: the failed page is skipped and the
remaining pages are still processed. -/
lemma walkAux_skip {getPage : Nat → Option (List Block)} {p : Nat}
    (hp : getPage p = none) :
    ∀ (pages : List Nat) (kn : Finset Int) (acc : List Stub),
      walkAux getPage pages kn acc =
        walkAux getPage (pages.filter (fun n => n ≠ p)) kn acc := by
  intro pages
  induction pages with
  | nil => intro kn acc; rfl
  | cons n rest ih =>
      intro kn acc
      by_cases hnp : n = p
      · subst hnp
        simp only [walkAux, hp, List.filter_cons]
        simp [ih]
      · have hfilter : (n :: rest).filter (fun m => m ≠ p) =
            n :: rest.filter (fun m => m ≠ p) := by
          simp [List.filter_cons, hnp]
        rw [hfilter]
        cases hpage : getPage n with
        | none => simp only [walkAux, hpage]; exact ih kn acc
        | some blocks =>
            simp only [walkAux, hpage]
            cases processBlocks blocks kn acc with
            | error e => rfl
            | ok s => exact ih s.1 s.2

/-- A bad block (one whose `result-id` does not parse) anywhere in a page's
scan raises an uncaught exception. -/
lemma processBlocks_error {b : Block} (hbad : ∃ e, pyInt b.result_id = Except.error e) :
    ∀ (blocks : List Block) (kn : Finset Int) (acc : List Stub), b ∈ blocks →
      ∃ e, processBlocks blocks kn acc = .error e := by
  intro blocks
  induction blocks with
  | nil => intro kn acc hb; exact absurd hb (List.not_mem_nil b)
  | cons b' rest ih =>
      intro kn acc hb
      rcases List.mem_cons.mp hb with rfl | hb
      · obtain ⟨e, he⟩ := hbad
        exact ⟨e, by simp [processBlocks, he]⟩
      · cases hid : pyInt b'.result_id with
        | error e => exact ⟨e, by simp [processBlocks, hid]⟩
        | ok rid =>
            by_cases hmem : rid ∈ kn
            · obtain ⟨e, he⟩ := ih kn acc hb
              exact ⟨e, by simpa [processBlocks, hid, hmem] using he⟩
            · by_cases htr0 : pyTruthy b'.url = true
              · obtain ⟨e, he⟩ := ih (insert rid kn)
                  (acc ++ [⟨rid, pyStrip (b'.result_name.getD "N/A"), b'.url⟩]) hb
                exact ⟨e, by simpa [processBlocks, hid, hmem, htr0] using he⟩
              · obtain ⟨e, he⟩ := ih kn acc hb
                exact ⟨e, by simpa [processBlocks, hid, hmem, htr0] using he⟩

/-- A bad block on any successfully fetched page of the walk raises an
uncaught exception that aborts the whole walk. -/
lemma walkAux_error {getPage : Nat → Option (List Block)} {n : Nat}
    {blocks : List Block} {b : Block}
    (hpage : getPage n = some blocks) (hb : b ∈ blocks)
    (hbad : ∃ e, pyInt b.result_id = Except.error e) :
    ∀ (pages : List Nat) (kn : Finset Int) (acc : List Stub), n ∈ pages →
      ∃ e, walkAux getPage pages kn acc = .error e := by
  intro pages
  induction pages with
  | nil => intro kn acc hn; exact absurd hn (List.not_mem_nil n)
  | cons m rest ih =>
      intro kn acc hn
      cases hm : getPage m with
      | none =>
          have hn' : n ∈ rest := by
            rcases List.mem_cons.mp hn with rfl | hn'
            · rw [hm] at hpage; cases hpage
            · exact hn'
          obtain ⟨e, he⟩ := ih kn acc hn'
          exact ⟨e, by simpa [walkAux, hm] using he⟩
      | some blocks' =>
          by_cases hbad' : ∃ b' ∈ blocks', ∃ e, pyInt b'.result_id = Except.error e
          · obtain ⟨b', hb', hbadb'⟩ := hbad'
            obtain ⟨e, he⟩ := processBlocks_error hbadb' blocks' kn acc hb'
            exact ⟨e, by simp [walkAux, hm, he]⟩
          · have hlegal : ∀ b' ∈ blocks', ∃ i, pyInt b'.result_id = Except.ok i := by
              intro b' hb'
              cases hid : pyInt b'.result_id with
              | ok i => exact ⟨i, rfl⟩
              | error e => exact absurd ⟨b', hb', e, hid⟩ hbad'
            obtain ⟨kn₁, out₁, heq₁, _, _, _, _⟩ :=
              processBlocks_spec blocks' kn acc hlegal
            have hn' : n ∈ rest := by
              rcases List.mem_cons.mp hn with rfl | hn'
              · rw [hm] at hpage
                injection hpage with hbe
                subst hbe
                exact absurd ⟨b, hb, hbad⟩ hbad'
              · exact hn'
            obtain ⟨e, he⟩ := ih kn₁ (acc ++ out₁) hn'
            exact ⟨e, by simp [walkAux, hm, heq₁, he]⟩

example : get_total_pages (some ["1", "2", "3", "next"]) = 3 := by decide
example : get_total_pages none = 1 := by decide
example : get_total_pages (some ["next", ""]) = 1 := by decide
example : pyInt (some "42") = .ok 42 := rfl
example : pyInt (some " -7 ") = .ok (-7) := rfl
example : pyInt none = .error .typeError := rfl
example : pyInt (some "abc") = .error .valueError := rfl
example : (executeWithRetry (fun _ => (none : Option Unit)) 3 10).attempts = 4 := by decide
example : (executeWithRetry (fun _ => (none : Option Unit)) 3 10).sleeps = [10, 20, 30] := by decide
example : (executeWithRetry (fun a => if 2 ≤ a then some () else none) 3 10).sleeps = [10, 20] := by decide

/-- C1: for every input list of stubs given to the detail-fetch pool, the
output list contains exactly one outcome per input stub — it is precisely
the list of per-stub outcomes — so its length equals the input length
regardless of individual fetch or parse failures. -/
theorem claim_C1_pool_completion (details : Stub → Nat → Option DetailPage)
    (stubs : List Stub) :
    runPool details stubs = stubs.map (fun s => fetch_profile_details (details s) s) ∧
    (runPool details stubs).length = stubs.length := by
  have h : runPool details stubs =
      stubs.map (fun s => fetch_profile_details (details s) s) := by
    simpa [runPool, detailFuture] using
      collectResults_ok (fun s => fetch_profile_details (details s) s) stubs
  exact ⟨h, by rw [h]; simp⟩

/-- C2: a detail fetch whose retries are exhausted still emits the record,
with phone, specialization and address all `None` and the stub's id, name
and profile reference preserved unchanged. -/
theorem claim_C2_degraded_record (op : Nat → Option DetailPage) (s : Stub)
    (hfail : ∀ a, a ≤ MAX_RETRIES → op a = none) :
    fetch_profile_details op s = ⟨s.id, s.name, s.profile_url, none, none, none⟩ := by
  have h := executeWithRetry_all_fail op RETRY_DELAY_SECONDS MAX_RETRIES hfail
  simp [fetch_profile_details, h]

/-- Witness for C2 at a concrete stub and an always-failing detail oracle. -/
theorem claim_C2_witness :
    fetch_profile_details (fun _ => none) ⟨123, "Dr. W", some "uW"⟩ =
      ⟨123, "Dr. W", some "uW", none, none, none⟩ :=
  claim_C2_degraded_record (fun _ => none) ⟨123, "Dr. W", some "uW"⟩ (fun _ _ => rfl)

/-- C3: the retry policy attempts an always-failing operation exactly
`maxRetries + 1` times (one initial attempt plus `maxRetries` retries) and
then reports failure; with `maxRetries = 3` that is 4 attempts. -/
theorem claim_C3_retry_exhaustion {α : Type} (op : Nat → Option α) (d m : Nat)
    (h : ∀ a, a ≤ m → op a = none) :
    (executeWithRetry op m d).result = none ∧
    (executeWithRetry op m d).attempts = m + 1 := by
  rw [executeWithRetry_all_fail op d m h]
  exact ⟨rfl, rfl⟩

/-- Witness for C3: with `maxAttempts = 3` an always-failing operation is
attempted exactly 4 times and no result is produced. -/
theorem claim_C3_witness :
    (executeWithRetry (fun _ => (none : Option Unit)) 3 10).result = none ∧
    (executeWithRetry (fun _ => (none : Option Unit)) 3 10).attempts = 3 + 1 :=
  claim_C3_retry_exhaustion (fun _ => none) 10 3 (fun _ _ => rfl)

/-- C4: when an operation fails on the first `k` attempts and succeeds on
attempt `k` (0-based), the retry policy returns the success and the sleeps
performed are exactly `d * 1, …, d * k` — linear backoff, `d * j` before
the j-th retry. -/
theorem claim_C4_linear_backoff {α : Type} (op : Nat → Option α) (d m k : Nat) (v : α)
    (hk : k ≤ m) (hfail : ∀ i, i < k → op i = none) (hsucc : op k = some v) :
    (executeWithRetry op m d).result = some v ∧
    (executeWithRetry op m d).sleeps = (List.range' 1 k).map (fun i => d * i) := by
  rw [executeWithRetry_succeeds op d m k v hk hfail hsucc]
  exact ⟨rfl, rfl⟩

/-- Witness for C4: failing on attempts 1 and 2 and succeeding on attempt 3
(1-indexed) with `maxAttempts = 3` returns success after cumulative sleep
`d*1 + d*2`. -/
theorem claim_C4_witness :
    (executeWithRetry (fun a => if 2 ≤ a then some () else none) 3 10).result = some () ∧
    (executeWithRetry (fun a => if 2 ≤ a then some () else none) 3 10).sleeps =
      (List.range' 1 2).map (fun i => 10 * i) ∧
    ((executeWithRetry (fun a => if 2 ≤ a then some () else none) 3 10).sleeps).sum =
      10 * 1 + 10 * 2 := by
  have h := claim_C4_linear_backoff (fun a => if 2 ≤ a then some () else none) 10 3 2 ()
    (by omega) (fun i hi => if_neg (by omega)) (if_pos (by omega))
  exact ⟨h.1, h.2, by rw [h.2]; decide⟩

/-- C5: the discovered page count is 1 when the pagination control is
absent, 1 when it has no numeric label, and otherwise the maximum of the
numeric labels (a numeric label that is both attained and an upper bound),
non-numeric labels being ignored. -/
theorem claim_C5_pagination :
    get_total_pages none = 1 ∧
    (∀ ls, numericLabels ls = [] → get_total_pages (some ls) = 1) ∧
    (∀ ls, numericLabels ls ≠ [] → get_total_pages (some ls) ∈ numericLabels ls) ∧
    (∀ ls n, n ∈ numericLabels ls → n ≤ get_total_pages (some ls)) := by
  refine ⟨rfl, ?_, ?_, ?_⟩
  · intro ls h
    simp [get_total_pages, h]
  · intro ls h
    cases hnl : numericLabels ls with
    | nil => exact absurd hnl h
    | cons n restl =>
        simp only [get_total_pages, hnl]
        exact foldl_max_mem restl n
  · intro ls n hn
    cases hnl : numericLabels ls with
    | nil => rw [hnl] at hn; cases hn
    | cons n₀ restl =>
        simp only [get_total_pages, hnl]
        rw [hnl] at hn
        exact foldl_max_le restl n₀ n hn

/-- Witness for C5: labels `{"1","2","3","next"}` give page count 3, an
absent control gives 1, and a control with no numeric label gives 1. -/
theorem claim_C5_witness :
    get_total_pages none = 1 ∧
    get_total_pages (some ["next", " "]) = 1 ∧
    get_total_pages (some ["1", "2", "3", "next"]) ∈ numericLabels ["1", "2", "3", "next"] ∧
    3 ≤ get_total_pages (some ["1", "2", "3", "next"]) ∧
    get_total_pages (some ["1", "2", "3", "next"]) = 3 :=
  ⟨claim_C5_pagination.1,
   claim_C5_pagination.2.1 _ (by decide),
   claim_C5_pagination.2.2.1 _ (by decide),
   claim_C5_pagination.2.2.2 _ 3 (by decide),
   by decide⟩

/-- C6: over any walked sequence of pages (including repeated announcements
of the same record), a stub id appears in the output iff it was not in the
initial known-id set and some scanned block announces it with a non-empty
profile reference; the output ids are pairwise distinct (hence disjoint from
the initial known ids) and every emitted stub has a non-empty reference. -/
theorem claim_C6_dedup (o : SearchOracle) (init : Finset Int) (fp : FirstPage)
    (hfp : (executeWithRetry o.firstPage MAX_RETRIES RETRY_DELAY_SECONDS).result = some fp)
    (hlegal : ∀ b ∈ scannedBlocks (pageContent o fp)
        (pageRange (get_total_pages fp.pagination)),
        ∃ i, pyInt b.result_id = Except.ok i) :
    ∃ out, scrape_search_results o init = .ok out ∧
      (out.map Stub.id).Nodup ∧
      (∀ s ∈ out, pyTruthy s.profile_url = true) ∧
      (∀ i : Int, i ∈ out.map Stub.id ↔
        i ∉ init ∧ ∃ b ∈ scannedBlocks (pageContent o fp)
          (pageRange (get_total_pages fp.pagination)),
          pyInt b.result_id = Except.ok i ∧ pyTruthy b.url = true) := by
  obtain ⟨kn', out, heq, hkn, hnd, htrA, hiff⟩ :=
    walkAux_spec (pageContent o fp) (pageRange (get_total_pages fp.pagination))
      init [] hlegal
  refine ⟨out, ?_, hnd, htrA, hiff⟩
  simp only [scrape_search_results, hfp, heq, List.nil_append]

/-- Witness for C6: a two-page walk that announces id 5 on both pages,
id 9 (already known) on page 1, and id 7 on page 2. -/
theorem claim_C6_witness :
    ∃ out, scrape_search_results oracleW ({9} : Finset Int) = .ok out ∧
      (out.map Stub.id).Nodup ∧
      (∀ s ∈ out, pyTruthy s.profile_url = true) ∧
      (∀ i : Int, i ∈ out.map Stub.id ↔
        i ∉ ({9} : Finset Int) ∧ ∃ b ∈ scannedBlocks (pageContent oracleW firstPageW)
          (pageRange (get_total_pages firstPageW.pagination)),
          pyInt b.result_id = Except.ok i ∧ pyTruthy b.url = true) := by
  refine claim_C6_dedup oracleW {9} firstPageW rfl ?_
  intro b hb
  have hscan : scannedBlocks (pageContent oracleW firstPageW)
      (pageRange (get_total_pages firstPageW.pagination)) =
      [blockA, blockK, blockA, blockB] := by decide
  rw [hscan] at hb
  simp only [List.mem_cons, List.not_mem_nil, or_false] at hb
  rcases hb with rfl | rfl | rfl | rfl
  · exact ⟨5, rfl⟩
  · exact ⟨9, rfl⟩
  · exact ⟨5, rfl⟩
  · exact ⟨7, rfl⟩

/-- C7: a non-first listing page whose retried fetch never resolves is
skipped on its own — the walk is the walk over the remaining pages, so
stubs of every other successfully fetched page are still produced and the
run is not aborted. -/
theorem claim_C7_page_skip (o : SearchOracle) (init : Finset Int) (fp : FirstPage)
    (p : Nat)
    (hfp : (executeWithRetry o.firstPage MAX_RETRIES RETRY_DELAY_SECONDS).result = some fp)
    (hp1 : p ≠ 1)
    (hfail : ∀ a, a ≤ MAX_RETRIES → o.page p a = none) :
    scrape_search_results o init =
      Except.map Prod.snd (walkAux (pageContent o fp)
        ((pageRange (get_total_pages fp.pagination)).filter (fun n => n ≠ p))
        init []) := by
  have hnone : pageContent o fp p = none := by
    have h := executeWithRetry_all_fail (o.page p) RETRY_DELAY_SECONDS MAX_RETRIES hfail
    simp [pageContent, hp1, h]
  have hskip := walkAux_skip hnone (pageRange (get_total_pages fp.pagination)) init []
  simp only [scrape_search_results, hfp, hskip]
  cases walkAux (pageContent o fp)
      ((pageRange (get_total_pages fp.pagination)).filter (fun n => n ≠ p)) init [] with
  | error e => rfl
  | ok s => rcases s with ⟨kn, stubs⟩; rfl

/-- Witness for C7: with page 2 failing every attempt, the scrape equals the
walk over the page list with page 2 removed. -/
theorem claim_C7_witness :
    scrape_search_results oracleW7 (∅ : Finset Int) =
      Except.map Prod.snd (walkAux (pageContent oracleW7 firstPageW)
        ((pageRange (get_total_pages firstPageW.pagination)).filter (fun n => n ≠ 2))
        ∅ []) :=
  claim_C7_page_skip oracleW7 ∅ firstPageW 2 rfl (by decide) (fun _ _ => rfl)

/-- C8: when the first search page cannot be fetched after retry
exhaustion, the run produces no stubs, never enters the detail-fetch pool,
and never invokes persistence. -/
theorem claim_C8_fatal_first_page (env : Env)
    (hfail : ∀ a, a ≤ MAX_RETRIES → env.search.firstPage a = none) :
    mainNew env = .ok ⟨[], false, [], false⟩ := by
  have h := executeWithRetry_all_fail env.search.firstPage RETRY_DELAY_SECONDS
    MAX_RETRIES hfail
  simp [mainNew, scrape_search_results, h]

/-- Witness for C8 at a concrete environment whose first page never
resolves. -/
theorem claim_C8_witness : mainNew envW8 = .ok ⟨[], false, [], false⟩ :=
  claim_C8_fatal_first_page envW8 (fun _ _ => rfl)

/-- C9: a block on a successfully fetched listing page whose `result-id`
attribute is absent or non-numeric makes the unguarded `int` conversion
raise, aborting the entire run rather than degrading or skipping. -/
theorem claim_C9_unguarded_int (env : Env) (fp : FirstPage) (n : Nat)
    (blocks : List Block) (b : Block)
    (hfp : (executeWithRetry env.search.firstPage MAX_RETRIES
      RETRY_DELAY_SECONDS).result = some fp)
    (hn : n ∈ pageRange (get_total_pages fp.pagination))
    (hpage : pageContent env.search fp n = some blocks)
    (hb : b ∈ blocks)
    (hbad : ∃ e, pyInt b.result_id = Except.error e) :
    ∃ e, mainNew env = .error e := by
  obtain ⟨e, he⟩ := walkAux_error hpage hb hbad
    (pageRange (get_total_pages fp.pagination)) (get_existing_ids env.db) [] hn
  exact ⟨e, by simp [mainNew, scrape_search_results, hfp, he]⟩

/-- Witness for C9: a first page carrying a block without a `result-id`
attribute aborts the run. -/
theorem claim_C9_witness : ∃ e, mainNew envW9 = .error e :=
  claim_C9_unguarded_int envW9 ⟨none, [blockBad]⟩ 1 [blockBad] blockBad rfl
    (by decide) rfl (by decide) ⟨.typeError, rfl⟩

/-- C10: a database error while loading the known ids makes discovery mode
proceed with the empty known-id set — the run is identical to one whose
database read returned the empty set, not aborted. -/
theorem claim_C10_db_error (env : Env) (e : DbErr) (h : env.db = .error e) :
    get_existing_ids env.db = ∅ ∧
    mainNew env = mainNew ⟨.ok ∅, env.search, env.details⟩ := by
  rcases env with ⟨db, s, dl⟩
  have h' : db = Except.error e := h
  subst h'
  exact ⟨rfl, rfl⟩

/-- Witness for C10 at a concrete environment whose database read fails. -/
theorem claim_C10_witness :
    get_existing_ids envW10.db = ∅ ∧
    mainNew envW10 = mainNew ⟨.ok ∅, envW10.search, envW10.details⟩ :=
  claim_C10_db_error envW10 .sqliteError rfl
